import Mathlib

/-!
Verification of tsuru's `provision/docker/nodecontainer` package
(`nodecontainer.go`), shallowly embedded in Lean 4.

Conventions of the embedding:
* Go strings are Lean `String`s; where the code splits strings on a
  single-character separator (`strings.SplitN` with `"/"`, `":"`, `"="`)
  we work on the underlying `List Char` with structurally recursive
  splitters so that everything is kernel-computable.
* Go errors are modelled as `Option` values (`none` = `nil`), with
  dedicated inductive types where the code distinguishes error kinds by
  sentinel equality or type assertion (`EngineErr`, `ConfigErr`).
* External collaborators (the scoped-config store, the docker engine,
  the digest extractor `fix.GetImageDigest`) are oracles: their outcomes
  are inputs of the embedded functions, and the calls the code issues to
  them are reported in the result so properties about "which calls were
  made" are statable.
* Goroutine fan-out in `ensureContainersStarted` is modelled by its
  synchronisation structure: all error-channel sends happen before the
  single drain (the drain runs only after `wg.Wait()`), so a send
  completes iff a buffer slot is free, i.e. all sends complete iff the
  number of failures is at most the channel capacity `len(nodes)`.
  A run that cannot complete its sends deadlocks; the model returns
  `none` for such a run (`some` = the function returns).
-/

/-- Splitting a character list around every occurrence of `sep`
(the semantics of Go `strings.Split` for a one-character separator).
The result is always nonempty. -/
def splitOnChar (sep : Char) : List Char → List (List Char)
  | [] => [[]]
  | c :: rest =>
    match splitOnChar sep rest with
    | [] => if c = sep then [[], []] else [[c]]
    | h :: t => if c = sep then [] :: h :: t else (c :: h) :: t

/-- Joining pieces with a one-character separator
(Go `strings.Join` with a one-character separator). -/
def joinSepChar (sep : Char) : List (List Char) → List Char
  | [] => []
  | [x] => x
  | x :: xs => x ++ sep :: joinSepChar sep xs

/-- Go `strings.SplitN(s, sep, n)` for a one-character separator and
`n ≥ 0`: at most `n` pieces, the last piece being the unsplit remainder.
`n = 0` yields no pieces, as in Go. -/
def goSplitN (sep : Char) (n : Nat) (s : List Char) : List (List Char) :=
  if n = 0 then []
  else
    let parts := splitOnChar sep s
    if parts.length ≤ n then parts
    else parts.take (n - 1) ++ [joinSepChar sep (parts.drop (n - 1))]

/-- Go `strings.Join` on strings, used for the aggregate error message. -/
def goJoin (sep : String) : List String → String
  | [] => ""
  | [x] => x
  | x :: xs => x ++ sep ++ goJoin sep xs

/-- The `docker.Config` fields this package reads or writes
(`Image`, `Env`); the remaining fields are carried opaquely by the Go
code and never inspected, so they are omitted. -/
structure DockerConfig where
  Image : String
  Env : List String
deriving DecidableEq

/-- `NodeContainerConfig` from nodecontainer.go (`HostConfig` is never
inspected by the functions under verification and is omitted). -/
structure NodeContainerConfig where
  Name : String
  PinnedImage : String
  Config : DockerConfig
deriving DecidableEq

/-- Error kinds of the registry operations: `ValidationErr` values built
by `validate`, versus errors coming back from the scoped-config store. -/
inductive ConfigErr
  | validation (msg : String)
  | store (msg : String)
deriving DecidableEq

/-- `(*NodeContainerConfig).validate(pool)` from nodecontainer.go. -/
def validate (pool : String) (c : NodeContainerConfig) : Option ConfigErr :=
  if c.Name = "" then
    some (.validation "node container config name cannot be empty")
  else if c.Config.Image ≠ "" ∧ pool ≠ "" then
    some (.validation "it's not possible to override image in pool, please set image as a default value")
  else
    none

/-- Outcomes of the scoped-config store's `Save` / `SaveMerge`
(external collaborator, supplied as an oracle). -/
structure StoreEnv where
  saveRes : Option ConfigErr
  saveMergeRes : Option ConfigErr

/-- `AddNewContainer(pool, c)` from nodecontainer.go. The boolean
records whether the store (`conf.Save`) was invoked. -/
def AddNewContainer (st : StoreEnv) (pool : String) (c : NodeContainerConfig) :
    Option ConfigErr × Bool :=
  match validate pool c with
  | some e => (some e, false)
  | none => (st.saveRes, true)

/-- `UpdateContainer(pool, c)` from nodecontainer.go. The boolean
records whether the store (`conf.SaveMerge`) was invoked. -/
def UpdateContainer (st : StoreEnv) (pool : String) (c : NodeContainerConfig) :
    Option ConfigErr × Bool :=
  match validate pool c with
  | some e => (some e, false)
  | none => (st.saveMergeRes, true)

/-- `shouldPinImage(image)` from nodecontainer.go:
`parts := SplitN(image, "/", 3); lastPart := parts[len(parts)-1];
versionParts := SplitN(lastPart, ":", 2);
return len(versionParts) < 2 || versionParts[1] == "latest"`. -/
def shouldPinImage (image : String) : Bool :=
  let parts := goSplitN '/' 3 image.data
  let lastPart := parts.getLastD []
  let versionParts := goSplitN ':' 2 lastPart
  decide (versionParts.length < 2) || decide (versionParts.getLastD [] = "latest".data)

/-- Modelled from the spec: "`ShouldPin(image)`: true iff the image
reference has no explicit tag, or its tag is the mutable alias
`latest`" — the tag of a reference being the text after the first `:`
of its final `/`-separated path segment (absent when that segment has
no `:`). Used as the comparison point for the refinement claim about
`shouldPinImage`. -/
def specShouldPin (image : String) : Bool :=
  let seg := (splitOnChar '/' image.data).getLastD []
  let vp := goSplitN ':' 2 seg
  decide (vp.length < 2) || decide (vp.getLastD [] = "latest".data)

/-- One step of the `EnvMap` loop body on an accumulator modelling the
Go map (later writes to a key overwrite earlier ones). -/
def mapPut (k v : String) (m : List (String × String)) : List (String × String) :=
  (m.filter (fun p => p.1 ≠ k)) ++ [(k, v)]

/-- The loop of `(*NodeContainerConfig).EnvMap()`:
`parts := strings.SplitN(e, "=", 2); envMap[parts[0]] = parts[1]`.
Reading `parts[1]` when the entry has no `=` is an out-of-bounds index
(a Go panic); the model returns `none` for such a run. -/
def envMapLoop : List String → List (String × String) → Option (List (String × String))
  | [], acc => some acc
  | e :: rest, acc =>
    match goSplitN '=' 2 e.data with
    | [k, v] => envMapLoop rest (mapPut ⟨k⟩ ⟨v⟩ acc)
    | _ => none

/-- `(*NodeContainerConfig).EnvMap()` from nodecontainer.go, `none`
standing for the index-out-of-range panic on an entry without `=`. -/
def EnvMap (c : NodeContainerConfig) : Option (List (String × String)) :=
  envMapLoop c.Config.Env []

/-- The loop of `pullWithRetry`: `fuel` is the remaining value of the
Go loop counter `maxTries`, `idx` counts the pull attempts already made,
`buf` is the shared output buffer (one `bytes.Buffer` across attempts),
`lastErr` the error of the most recent attempt. `attempt idx` is the
engine's outcome of the `idx`-th `client.PullImage` call (an external
oracle; `none` = success) and `write idx` what that call writes to the
buffer. Returns (captured output, error, attempts consumed). -/
def pullLoop (attempt : Nat → Option String) (write : Nat → String) :
    Nat → Nat → String → Option String → String × Option String × Nat
  | 0, idx, _, lastErr => ("", lastErr, idx)
  | fuel + 1, idx, buf, _ =>
    match attempt idx with
    | none => (buf ++ write idx, none, idx + 1)
    | some e => pullLoop attempt write fuel (idx + 1) (buf ++ write idx) (some e)

/-- `pullWithRetry(client, p, image, maxTries)` from nodecontainer.go.
`maxTries` is a Go `int`, so it may be non-positive, in which case the
loop body never runs and `("", nil)` is returned with `err` still at its
zero value. -/
def pullWithRetry (attempt : Nat → Option String) (write : Nat → String)
    (maxTries : Int) : String × Option String × Nat :=
  pullLoop attempt write maxTries.toNat 0 "" none

/-- `(*NodeContainerConfig).image()` from nodecontainer.go. -/
def NodeContainerConfig.image (c : NodeContainerConfig) : String :=
  if c.PinnedImage ≠ "" then c.PinnedImage else c.Config.Image

/-- External outcomes consumed by `pullImage`: the engine's pull
attempts (fed to `pullWithRetry`), `fix.GetImageDigest` on the captured
output (`""` = no digest could be extracted; the Go code discards the
accompanying error), and the store's `SetField` result. -/
structure PullEnv where
  attempt : Nat → Option String
  write : Nat → String
  digestOf : String → String
  setFieldErr : Option String

/-- Result of `pullImage`: the returned `(image, err)` pair, the new
value of `c.PinnedImage` when the code assigned it, and whether (and
with which value) the store's single-field update
`conf.SetField("", "PinnedImage", pinnedImage)` was invoked. -/
structure PullImageResult where
  image : String
  err : Option String
  newPinned : Option String
  setFieldCalled : Bool
  setFieldValue : String
deriving DecidableEq

/-- `(*NodeContainerConfig).pullImage(client, p)` from
nodecontainer.go (the hard-coded retry bound is 3). -/
def pullImage (c : NodeContainerConfig) (env : PullEnv) : PullImageResult :=
  let r := pullWithRetry env.attempt env.write 3
  match r.2.1 with
  | some e => ⟨"", some e, none, false, ""⟩
  | none =>
    let image := c.image
    if shouldPinImage image then
      let digest := env.digestOf r.1
      let pinnedImage := if digest ≠ "" then image ++ "@" ++ digest else ""
      if pinnedImage ≠ image then
        ⟨image, env.setFieldErr, some pinnedImage, true, pinnedImage⟩
      else
        ⟨image, none, none, false, ""⟩
    else
      ⟨image, none, none, false, ""⟩

/-- Errors of the docker engine as the code distinguishes them:
the `docker.ErrContainerAlreadyExists` sentinel, the
`*docker.ContainerAlreadyRunning` type, and everything else. -/
inductive EngineErr
  | alreadyExists
  | alreadyRunning
  | other (msg : String)
deriving DecidableEq

/-- The message a unit failure carries into the aggregate error (the
`%s` formatting of the Go error value). The sentinel texts are those of
go-dockerclient; only `other` is produced by the oracle-free paths the
claims evaluate. -/
def EngineErr.message : EngineErr → String
  | .alreadyExists => "container already exists"
  | .alreadyRunning => "container already running"
  | .other m => m

/-- The docker-engine calls `create` can issue, in order. -/
inductive DockerCall
  | createC
  | removeC
  | startC
deriving DecidableEq

/-- External outcomes consumed by one `create` run: `dockerClient`
construction, the pull oracles, the first `CreateContainer`, the
`RemoveContainer` of the relaunch branch, the retried
`CreateContainer`, and `StartContainer`. -/
structure CreateEnv where
  clientErr : Option String
  pull : PullEnv
  create1 : Option EngineErr
  removeRes : Option EngineErr
  create2 : Option EngineErr
  startRes : Option EngineErr

/-- Result of `create`: the returned error and the engine calls made. -/
structure CreateResult where
  err : Option EngineErr
  calls : List DockerCall
deriving DecidableEq

/-- The tail of `create` after the creation attempt(s): return a fatal
creation error (`err != nil && err != ErrContainerAlreadyExists`),
otherwise start the container, absorbing `ContainerAlreadyRunning`. -/
def afterCreatePhase (env : CreateEnv) (err : Option EngineErr)
    (trace : List DockerCall) : CreateResult :=
  if err ≠ none ∧ err ≠ some .alreadyExists then ⟨err, trace⟩
  else
    match env.startRes with
    | some .alreadyRunning => ⟨none, trace ++ [.startC]⟩
    | r => ⟨r, trace ++ [.startC]⟩

/-- `(*NodeContainerConfig).create(dockerEndpoint, poolName, p,
relaunch)` from nodecontainer.go. The mutations of `c.Config` (image
assignment and `DOCKER_ENDPOINT` prepend) only feed the engine calls,
which are oracles here, so they are not part of the result. -/
def create (c : NodeContainerConfig) (env : CreateEnv) (relaunch : Bool) :
    CreateResult :=
  match env.clientErr with
  | some m => ⟨some (.other m), []⟩
  | none =>
    match (pullImage c env.pull).err with
    | some m => ⟨some (.other m), []⟩
    | none =>
      if relaunch ∧ env.create1 = some .alreadyExists then
        match env.removeRes with
        | some e => ⟨some e, [.createC, .removeC]⟩
        | none => afterCreatePhase env env.create2 [.createC, .removeC, .createC]
      else
        afterCreatePhase env env.create1 [.createC]

/-- A cluster node as this code reads it: its address and its
`Metadata["pool"]` entry. -/
structure Node where
  address : String
  pool : String
deriving DecidableEq

/-- External outcomes consumed by one (node, configuration-name)
recreation unit: the `LoadNodeContainer` result and the engine
outcomes of its `create` run. -/
structure UnitEnv where
  loadErr : Option String
  conf : NodeContainerConfig
  createEnv : CreateEnv

/-- The `recreateContainer` closure inside `ensureContainersStarted`:
the failure message this unit sends on `errChan`, or `none` when the
unit succeeds and sends nothing. A load failure is sent as-is; a
`create` failure is sent wrapped with node address and pool. -/
def recreateContainer (env : Node → String → UnitEnv) (relaunch : Bool)
    (node : Node) (confName : String) : Option String :=
  let u := env node confName
  match u.loadErr with
  | some e => some e
  | none =>
    match (create u.conf u.createEnv relaunch).err with
    | some e =>
      some ("[node containers] failed to create container in " ++ node.address
        ++ " [" ++ node.pool ++ "]: " ++ e.message)
    | none => none

/-- All failure messages sent on `errChan` during one run, one per
failing unit of the `nodes × confNames` fan-out. The concurrent send
order is arbitrary; the properties proved below are order-independent,
so the model fixes the nested-loop order. -/
def unitFailures (env : Node → String → UnitEnv) (relaunch : Bool)
    (nodes : List Node) (confNames : List String) : List String :=
  (nodes.map (fun n => confNames.filterMap
    (fun cn => recreateContainer env relaunch n cn))).flatten

/-- Sends into a buffered channel of capacity `cap` that no receiver
drains until after every send has completed (in the source, `errChan`
is only read after `wg.Wait()`, and `wg.Wait()` returns only once every
sender has finished). Every send completes iff there are at most `cap`
of them; otherwise some sender blocks forever (`none` = that deadlock). -/
def chanSendAll (cap : Nat) (msgs : List String) : Option (List String) :=
  if msgs.length ≤ cap then some msgs else none

/-- `ensureContainersStarted(p, w, relaunch, nodes...)` from
nodecontainer.go, from the fan-out on: `confNames` is the (successful)
store enumeration, `nodes` the node list after the empty-argument
fallback, and `errChan` has capacity `len(nodes)`. The outer result is
`none` when the run deadlocks (never returns); otherwise
`some none` = `nil`, `some (some msg)` = the aggregate error. Progress
writes to `w` are side effects no claim mentions and are omitted. -/
def ensureContainersStarted (env : Node → String → UnitEnv) (relaunch : Bool)
    (nodes : List Node) (confNames : List String) : Option (Option String) :=
  match chanSendAll nodes.length (unitFailures env relaunch nodes confNames) with
  | none => none
  | some [] => some none
  | some msgs => some (some ("multiple errors: " ++ goJoin ", " msgs))

/-- `(*ClusterHook).RunClusterHook(evt, node)` from nodecontainer.go.
`initErr` is the outcome of `InitializeBS()` (defined outside the
verified file; abstracted as an oracle). The hook then runs
`ensureContainersStarted` on exactly `[node]` with `relaunch = false`.
Outer `none` propagates a deadlocking recreation run. -/
def RunClusterHook (initErr : Option String) (env : Node → String → UnitEnv)
    (confNames : List String) (node : Node) : Option (Option String) :=
  match initErr with
  | some e => some (some ("unable to initialize bs node container: " ++ e))
  | none =>
    match ensureContainersStarted env false [node] confNames with
    | none => none
    | some none => some none
    | some (some e) => some (some ("unable to start node containers: " ++ e))

/-- The start outcome as `create` reports it: `ContainerAlreadyRunning`
is absorbed into success, anything else (success included) is returned
as-is. Names the last two lines of `create` for use in statements. -/
def startResult (env : CreateEnv) : Option EngineErr :=
  match env.startRes with
  | some .alreadyRunning => none
  | r => r

/-- The local `pinnedImage` value `pullImage` computes after a
successful pull: `image@digest` when a digest was extracted from the
captured output, `""` otherwise. -/
def pinnedCandidate (c : NodeContainerConfig) (env : PullEnv) : String :=
  let digest := env.digestOf (pullWithRetry env.attempt env.write 3).1
  if digest ≠ "" then c.image ++ "@" ++ digest else ""

/-- A pull environment whose engine succeeds immediately but whose
output yields no digest (`fix.GetImageDigest` finds nothing). -/
def pinCxEnv : PullEnv := ⟨fun _ => none, fun _ => "digestless output", fun _ => "", none⟩

/-- A pull environment whose engine succeeds immediately and whose
output carries an extractable digest. -/
def pinWitEnv : PullEnv :=
  ⟨fun _ => none, fun _ => "Digest: sha256:abc", fun _ => "sha256:abc", none⟩

/-- A configuration with an untagged (hence pin-worthy) image and no
pin yet. -/
def pinCxConfig : NodeContainerConfig := ⟨"big-sibling", "", ⟨"x/y", []⟩⟩

/-- A create environment whose engine calls all succeed except that the
first creation reports the container as already existing. -/
def witCreateEnv : CreateEnv :=
  ⟨none, ⟨fun _ => none, fun _ => "pulled", fun _ => "", none⟩,
    some .alreadyExists, none, none, none⟩

/-- A recreation unit whose configuration load fails. -/
def cxFailUnit : UnitEnv :=
  ⟨some "load failed",
    ⟨"big-sibling", "", ⟨"tsuru/bs:v1", []⟩⟩,
    ⟨none, ⟨fun _ => none, fun _ => "", fun _ => "", none⟩, none, none, none, none⟩⟩

/-- A concrete node. -/
def cxNode : Node := ⟨"http://n1:2375", "pool1"⟩

/-! ## Helper lemmas -/

theorem splitOnChar_ne_nil (sep : Char) (l : List Char) : splitOnChar sep l ≠ [] := by
  cases l with
  | nil => simp [splitOnChar]
  | cons c rest =>
    unfold splitOnChar
    split <;> split <;> simp

theorem splitOnChar_length_one_iff (sep : Char) (l : List Char) :
    (splitOnChar sep l).length = 1 ↔ sep ∉ l := by
  induction l with
  | nil => simp [splitOnChar]
  | cons c rest ih =>
    rcases hs : splitOnChar sep rest with _ | ⟨hd, tl⟩
    · exact absurd hs (splitOnChar_ne_nil sep rest)
    · rw [hs] at ih
      by_cases hc : c = sep
      · subst hc
        simp [splitOnChar, hs]
      · simp only [splitOnChar, hs, if_neg hc, List.length_cons, List.mem_cons]
        simp only [List.length_cons] at ih
        constructor
        · intro h1
          rintro (h | h)
          · exact hc h.symm
          · exact (ih.mp h1) h
        · intro h2
          exact ih.mpr (fun hm => h2 (Or.inr hm))

theorem goSplitN_all (sep : Char) (n : Nat) (s : List Char) (hn : n ≠ 0)
    (h : (splitOnChar sep s).length ≤ n) : goSplitN sep n s = splitOnChar sep s := by
  simp [goSplitN, hn, h]

theorem goSplitN2_of_mem (sep : Char) (l : List Char) (h : sep ∈ l) :
    ∃ k v, goSplitN sep 2 l = [k, v] := by
  have hne := splitOnChar_ne_nil sep l
  have hlen : (splitOnChar sep l).length ≠ 1 :=
    fun h1 => (splitOnChar_length_one_iff sep l).mp h1 h
  rcases hs : splitOnChar sep l with _ | ⟨a, _ | ⟨b, t⟩⟩
  · exact absurd hs hne
  · rw [hs] at hlen; simp at hlen
  · by_cases hle : (a :: b :: t).length ≤ 2
    · have ht : t = [] := by
        simp only [List.length_cons] at hle
        exact List.length_eq_zero.mp (by omega)
      subst ht
      exact ⟨a, b, by simp [goSplitN, hs]⟩
    · refine ⟨a, joinSepChar sep (b :: t), ?_⟩
      rw [goSplitN, if_neg (by decide), hs, if_neg hle]
      rfl

theorem goSplitN2_of_not_mem (sep : Char) (l : List Char) (h : sep ∉ l) :
    ∃ k, goSplitN sep 2 l = [k] := by
  have hlen : (splitOnChar sep l).length = 1 := (splitOnChar_length_one_iff sep l).2 h
  rcases List.length_eq_one.mp hlen with ⟨a, ha⟩
  exact ⟨a, by simp [goSplitN, ha]⟩

theorem envMapLoop_total (entries : List String) :
    ∀ acc, (∀ e ∈ entries, '=' ∈ e.data) → ∃ m, envMapLoop entries acc = some m := by
  induction entries with
  | nil => exact fun acc _ => ⟨acc, rfl⟩
  | cons x rest ih =>
    intro acc h
    obtain ⟨k, v, hs⟩ := goSplitN2_of_mem '=' x.data (h x (by simp))
    have := ih (mapPut ⟨k⟩ ⟨v⟩ acc) (fun e he => h e (by simp [he]))
    simpa [envMapLoop, hs] using this

theorem envMapLoop_panics (entries : List String) :
    ∀ acc e, e ∈ entries → '=' ∉ e.data → envMapLoop entries acc = none := by
  induction entries with
  | nil => intro _ e he; cases he
  | cons x rest ih =>
    intro acc e he hne
    by_cases hx : '=' ∈ x.data
    · obtain ⟨k, v, hs⟩ := goSplitN2_of_mem '=' x.data hx
      have hmem : e ∈ rest := by
        rcases List.mem_cons.mp he with rfl | hm
        · exact absurd hx hne
        · exact hm
      simpa [envMapLoop, hs] using ih (mapPut ⟨k⟩ ⟨v⟩ acc) e hmem hne
    · obtain ⟨k, hs⟩ := goSplitN2_of_not_mem '=' x.data hx
      simp [envMapLoop, hs]

/-! ## Claim theorems -/

/-- C6: for every pool and configuration, `AddNewContainer` and
`UpdateContainer` return a `ValidationErr` whenever the name is empty
(regardless of pool) or a non-empty image is set together with a
non-empty pool, and in either case they return before invoking the
store, so nothing is persisted. -/
theorem addUpdateContainer_validation (st : StoreEnv) (pool : String)
    (c : NodeContainerConfig)
    (h : c.Name = "" ∨ (c.Config.Image ≠ "" ∧ pool ≠ "")) :
    (∃ m, AddNewContainer st pool c = (some (.validation m), false)) ∧
    (∃ m, UpdateContainer st pool c = (some (.validation m), false)) := by
  have hv : ∃ m, validate pool c = some (.validation m) := by
    unfold validate
    by_cases hn : c.Name = ""
    · exact ⟨_, if_pos hn⟩
    · rcases h with h | h
      · exact absurd h hn
      · refine ⟨"it's not possible to override image in pool, please set image as a default value", ?_⟩
        rw [if_neg hn, if_pos h]
  obtain ⟨m, hm⟩ := hv
  exact ⟨⟨m, by simp [AddNewContainer, hm]⟩, ⟨m, by simp [UpdateContainer, hm]⟩⟩

/-- Witness for C6 at a concrete input: an empty name is rejected by
both operations without touching the store. -/
theorem addUpdateContainer_validation_witness :
    (∃ m, AddNewContainer ⟨none, none⟩ "p1" ⟨"", "", ⟨"", []⟩⟩ =
      (some (.validation m), false)) ∧
    (∃ m, UpdateContainer ⟨none, none⟩ "p1" ⟨"", "", ⟨"", []⟩⟩ =
      (some (.validation m), false)) :=
  addUpdateContainer_validation ⟨none, none⟩ "p1" ⟨"", "", ⟨"", []⟩⟩ (Or.inl rfl)

/-- C7 counterexample: the claim says `shouldPinImage` is true iff the
reference has no explicit tag or its tag is `latest`. The reference
`a/b/c:x/d` has a final path segment `d` carrying no tag, yet
`shouldPinImage` returns false, because `SplitN(image, "/", 3)` lumps
everything after the second `/` into one piece (`c:x/d`) and reads
`x/d` as the tag. -/
theorem shouldPinImage_deep_reference_cx :
    shouldPinImage "a/b/c:x/d" = false ∧ specShouldPin "a/b/c:x/d" = true :=
  ⟨by decide, by decide⟩

/-- C7 amended: for references with at most three `/`-separated
components, `shouldPinImage` is true iff the final path segment has no
tag or its tag is `latest`; the three concrete cases of the claim hold
as stated. -/
theorem shouldPinImage_matches_tag_spec (image : String)
    (h : (splitOnChar '/' image.data).length ≤ 3) :
    shouldPinImage image = specShouldPin image ∧
    shouldPinImage "x/y:v1" = false ∧
    shouldPinImage "x/y:latest" = true ∧
    shouldPinImage "x/y" = true := by
  refine ⟨?_, by decide, by decide, by decide⟩
  have hg : goSplitN '/' 3 image.data = splitOnChar '/' image.data :=
    goSplitN_all '/' 3 image.data (by decide) h
  simp only [shouldPinImage, specShouldPin, hg]

/-- Witness for C7 at a concrete input with at most three components. -/
theorem shouldPinImage_matches_tag_spec_witness :
    (splitOnChar '/' "x/y:latest".data).length ≤ 3 ∧
    shouldPinImage "x/y:latest" = specShouldPin "x/y:latest" :=
  ⟨by decide, (shouldPinImage_matches_tag_spec "x/y:latest" (by decide)).1⟩

/-- C9: `EnvMap` is total exactly on configurations whose every
`Config.Env` entry contains at least one `=`: when every entry has an
`=` a map is returned, and any entry without `=` makes `EnvMap` read
the missing second piece of the split, an out-of-bounds index (panic),
modelled as `none`. -/
theorem EnvMap_total_iff_wellformed (c : NodeContainerConfig) :
    ((∀ e ∈ c.Config.Env, '=' ∈ e.data) → ∃ m, EnvMap c = some m) ∧
    (∀ e ∈ c.Config.Env, '=' ∉ e.data → EnvMap c = none) := by
  exact ⟨fun h => envMapLoop_total c.Config.Env [] h,
    fun e he hne => envMapLoop_panics c.Config.Env [] e he hne⟩

/-- Witness for C9 at a concrete input: an entry without `=` panics,
an all-wellformed environment list succeeds. -/
theorem EnvMap_total_iff_wellformed_witness :
    EnvMap ⟨"n", "", ⟨"img", ["FOO"]⟩⟩ = none ∧
    (∃ m, EnvMap ⟨"n", "", ⟨"img", ["A=1", "B=2"]⟩⟩ = some m) :=
  ⟨(EnvMap_total_iff_wellformed ⟨"n", "", ⟨"img", ["FOO"]⟩⟩).2 "FOO" (by simp) (by decide),
   (EnvMap_total_iff_wellformed ⟨"n", "", ⟨"img", ["A=1", "B=2"]⟩⟩).1
     (by intro e he; fin_cases he <;> decide)⟩

/-- C10: `pullWithRetry` with a non-positive `maxTries` performs no
pull attempt at all (zero attempts consumed) and returns an empty
output together with a nil error, reporting success without any pull. -/
theorem pullWithRetry_nonpositive (attempt : Nat → Option String)
    (write : Nat → String) (maxTries : Int) (h : maxTries ≤ 0) :
    pullWithRetry attempt write maxTries = ("", none, 0) := by
  unfold pullWithRetry
  rw [Int.toNat_of_nonpos h]
  rfl

/-- Witness for C10 at a concrete input: even with an engine that
always fails, `maxTries = 0` yields success with zero attempts. -/
theorem pullWithRetry_nonpositive_witness :
    pullWithRetry (fun _ => some "network unreachable") (fun _ => "partial") 0 =
      ("", none, 0) :=
  pullWithRetry_nonpositive (fun _ => some "network unreachable") (fun _ => "partial") 0
    (le_refl 0)

theorem pullLoop_all_fail (attempt : Nat → Option String) (write : Nat → String)
    (errs : Nat → String) :
    ∀ fuel idx buf le, 0 < fuel →
      (∀ j, idx ≤ j → j < idx + fuel → attempt j = some (errs j)) →
      pullLoop attempt write fuel idx buf le =
        ("", some (errs (idx + fuel - 1)), idx + fuel) := by
  intro fuel
  induction fuel with
  | zero => intro idx buf le hpos _; exact absurd hpos (by omega)
  | succ n ih =>
    intro idx buf le _ hall
    have hx : attempt idx = some (errs idx) := hall idx (le_refl idx) (by omega)
    rcases Nat.eq_zero_or_pos n with hn | hn
    · subst hn
      simp [pullLoop, hx]
    · have hrec := ih (idx + 1) (buf ++ write idx) (some (errs idx)) hn
        (fun j hj1 hj2 => hall j (by omega) (by omega))
      have e1 : idx + 1 + n - 1 = idx + (n + 1) - 1 := by omega
      have e2 : idx + 1 + n = idx + (n + 1) := by omega
      rw [e1, e2] at hrec
      simpa [pullLoop, hx] using hrec

theorem pullLoop_first_success (attempt : Nat → Option String) (write : Nat → String) :
    ∀ fuel idx buf le d, d < fuel → attempt (idx + d) = none →
      (∀ j, idx ≤ j → j < idx + d → attempt j ≠ none) →
      ∃ out, pullLoop attempt write fuel idx buf le = (out, none, idx + d + 1) := by
  intro fuel
  induction fuel with
  | zero => intro _ _ _ d hd; exact absurd hd (by omega)
  | succ n ih =>
    intro idx buf le d hd hsucc hfail
    cases d with
    | zero =>
      refine ⟨buf ++ write idx, ?_⟩
      have hs : attempt idx = none := by simpa using hsucc
      simp [pullLoop, hs]
    | succ e =>
      have hx : attempt idx ≠ none := hfail idx (le_refl idx) (by omega)
      rcases hval : attempt idx with _ | err
      · exact absurd hval hx
      · obtain ⟨out, hout⟩ := ih (idx + 1) (buf ++ write idx) (some err) e (by omega)
          (by rw [show idx + 1 + e = idx + (e + 1) from by omega]; exact hsucc)
          (fun j hj1 hj2 => hfail j (by omega) (by omega))
        refine ⟨out, ?_⟩
        rw [show idx + 1 + e + 1 = idx + (e + 1) + 1 from by omega] at hout
        simpa [pullLoop, hval] using hout

/-- C5: `pullWithRetry` consumes attempts consecutively: it returns the
captured output and no error as soon as an attempt succeeds, consuming
exactly (index of first success + 1) attempts (3 with faults on the
first two attempts and success on the third with `maxTries = 3`);
when every one of the `maxTries` attempts fails it returns the error of
the last attempt, not the first. -/
theorem pullWithRetry_retry_semantics (attempt : Nat → Option String)
    (write : Nat → String) (maxTries : Int) (errs : Nat → String) (k : Nat) :
    (k < maxTries.toNat → attempt k = none →
      (∀ j, j < k → attempt j ≠ none) →
      ∃ out, pullWithRetry attempt write maxTries = (out, none, k + 1)) ∧
    (0 < maxTries.toNat →
      (∀ j, j < maxTries.toNat → attempt j = some (errs j)) →
      pullWithRetry attempt write maxTries =
        ("", some (errs (maxTries.toNat - 1)), maxTries.toNat)) := by
  constructor
  · intro hk hsucc hfail
    have := pullLoop_first_success attempt write maxTries.toNat 0 "" none k hk
      (by simpa using hsucc) (fun j _ hj2 => hfail j (by omega))
    simpa [pullWithRetry] using this
  · intro hpos hall
    have := pullLoop_all_fail attempt write errs maxTries.toNat 0 "" none hpos
      (fun j _ hj2 => hall j (by omega))
    simpa [pullWithRetry] using this

/-- Witness for C5 at the concrete scenario of the claim: faults on
attempts 1 and 2, success on attempt 3, `maxTries = 3`: the pull
succeeds and exactly 3 attempts are consumed. -/
theorem pullWithRetry_retry_semantics_witness :
    ∃ out, pullWithRetry (fun j => if j < 2 then some "connection reset" else none)
      (fun _ => "pull output ") 3 = (out, none, 3) :=
  (pullWithRetry_retry_semantics (fun j => if j < 2 then some "connection reset" else none)
    (fun _ => "pull output ") 3 (fun _ => "") 2).1 (by decide) (by decide)
    (fun j hj => by interval_cases j <;> simp)

/-- C3: per-unit lifecycle of `create`: with `relaunch = false` a
container-already-exists creation outcome is absorbed (no removal, the
unit proceeds to start); with `relaunch = true` it triggers exactly one
forced removal followed by exactly one retried creation; an
already-running start outcome is absorbed as success; any other
creation or start error is returned as the single failure. -/
theorem create_unit_lifecycle (c : NodeContainerConfig) (env : CreateEnv)
    (hc : env.clientErr = none) (hp : (pullImage c env.pull).err = none) :
    (env.create1 = some .alreadyExists →
      create c env false = ⟨startResult env, [.createC, .startC]⟩) ∧
    (env.create1 = some .alreadyExists → env.removeRes = none →
      ((create c env true).calls.take 3 = [.createC, .removeC, .createC] ∧
        (create c env true).calls.count .removeC = 1 ∧
        (create c env true).calls.count .createC = 2)) ∧
    (∀ relaunch, env.create1 = none → env.startRes = some .alreadyRunning →
      create c env relaunch = ⟨none, [.createC, .startC]⟩) ∧
    (∀ relaunch m, env.create1 = some (.other m) →
      create c env relaunch = ⟨some (.other m), [.createC]⟩) ∧
    (∀ relaunch m, env.create1 = none → env.startRes = some (.other m) →
      create c env relaunch = ⟨some (.other m), [.createC, .startC]⟩) := by
  refine ⟨?_, ?_, ?_, ?_, ?_⟩
  · intro h1
    simp only [create, hc, hp, h1, false_and, if_neg (by simp : ¬(False ∧ _))]
    unfold afterCreatePhase startResult
    rw [if_neg (by simp)]
    rcases env.startRes with _ | e
    · rfl
    · cases e <;> rfl
  · intro h1 h2
    simp only [create, hc, hp, h1, h2]
    rw [if_pos ⟨trivial, trivial⟩]
    unfold afterCreatePhase
    split
    · exact ⟨rfl, rfl, rfl⟩
    · rcases env.startRes with _ | e
      · exact ⟨rfl, rfl, rfl⟩
      · cases e <;> exact ⟨rfl, rfl, rfl⟩
  · intro relaunch h1 h2
    simp only [create, hc, hp, h1]
    rw [if_neg (by simp)]
    unfold afterCreatePhase
    rw [if_neg (by simp), h2]
    rfl
  · intro relaunch m h1
    simp only [create, hc, hp, h1]
    rw [if_neg (by simp)]
    unfold afterCreatePhase
    rw [if_pos (by simp)]
  · intro relaunch m h1 h2
    simp only [create, hc, hp, h1]
    rw [if_neg (by simp)]
    unfold afterCreatePhase
    rw [if_neg (by simp), h2]
    rfl

/-- Witness for C3 at a concrete input: first creation says the
container already exists, `relaunch = false` issues no removal and
proceeds straight to start. -/
theorem create_unit_lifecycle_witness :
    create ⟨"sysagent", "", ⟨"tsuru/agent:v1", []⟩⟩ witCreateEnv false =
      ⟨startResult witCreateEnv, [.createC, .startC]⟩ :=
  (create_unit_lifecycle ⟨"sysagent", "", ⟨"tsuru/agent:v1", []⟩⟩ witCreateEnv
    rfl rfl).1 rfl

theorem append_at_ne (a d : String) : a ++ "@" ++ d ≠ a := by
  intro heq
  have hlen := congrArg String.length heq
  simp only [String.length_append] at hlen
  have : String.length "@" = 1 := rfl
  omega

/-- C4 counterexample: the claim says the single-field store update is
issued only when a digest was extracted; but with a pin-worthy image
and a pull output from which no digest can be extracted, `pullImage`
still invokes `conf.SetField("", "PinnedImage", ...)`, persisting an
empty `PinnedImage`. -/
theorem pullImage_updates_store_without_digest :
    pinCxEnv.digestOf (pullWithRetry pinCxEnv.attempt pinCxEnv.write 3).1 = "" ∧
    (pullImage pinCxConfig pinCxEnv).setFieldCalled = true ∧
    (pullImage pinCxConfig pinCxEnv).setFieldValue = "" :=
  ⟨rfl, rfl, rfl⟩

/-- C4 amended: after a successful pull, `pullImage` issues the
single-field store update exactly when `shouldPinImage` holds for the
effective image and the computed pinned string (`image@digest` when a
digest was extracted, `""` otherwise) differs from the plain image
string — in particular also when digest extraction failed and the
image is non-empty, in which case it persists an empty `PinnedImage`.
When a digest was extracted the persisted value is `image@digest`,
which always differs from the plain image. The only error `pullImage`
can return after a successful pull is the store update's own failure;
digest-extraction failure by itself never produces an error. -/
theorem pullImage_pin_behaviour (c : NodeContainerConfig) (env : PullEnv)
    (h : (pullWithRetry env.attempt env.write 3).2.1 = none) :
    ((pullImage c env).setFieldCalled =
      (shouldPinImage c.image && decide (pinnedCandidate c env ≠ c.image))) ∧
    ((pullImage c env).setFieldCalled = true →
      (pullImage c env).setFieldValue = pinnedCandidate c env ∧
      (pullImage c env).newPinned = some (pinnedCandidate c env)) ∧
    (env.digestOf (pullWithRetry env.attempt env.write 3).1 ≠ "" →
      pinnedCandidate c env =
        c.image ++ "@" ++ env.digestOf (pullWithRetry env.attempt env.write 3).1 ∧
      pinnedCandidate c env ≠ c.image) ∧
    ((pullImage c env).err =
      if (pullImage c env).setFieldCalled then env.setFieldErr else none) := by
  have hd : pinnedCandidate c env =
      if env.digestOf (pullWithRetry env.attempt env.write 3).1 ≠ "" then
        c.image ++ "@" ++ env.digestOf (pullWithRetry env.attempt env.write 3).1
      else "" := rfl
  have hp : pullImage c env =
      (if shouldPinImage c.image then
        if pinnedCandidate c env ≠ c.image then
          ⟨c.image, env.setFieldErr, some (pinnedCandidate c env), true,
            pinnedCandidate c env⟩
        else ⟨c.image, none, none, false, ""⟩
      else ⟨c.image, none, none, false, ""⟩) := by
    simp only [pullImage]
    rw [h]
    rfl
  refine ⟨?_, ?_, ?_, ?_⟩
  · rw [hp]
    by_cases h1 : shouldPinImage c.image
    · by_cases h2 : pinnedCandidate c env ≠ c.image
      · simp [h1, h2]
      · simp [h1, h2]
    · simp [h1]
  · intro hcall
    rw [hp]
    rw [hp] at hcall
    by_cases h1 : shouldPinImage c.image
    · by_cases h2 : pinnedCandidate c env ≠ c.image
      · simp [h1, h2]
      · simp [h1, h2] at hcall
    · simp [h1] at hcall
  · intro hdig
    rw [hd, if_pos hdig]
    exact ⟨rfl, append_at_ne c.image _⟩
  · rw [hp]
    by_cases h1 : shouldPinImage c.image
    · by_cases h2 : pinnedCandidate c env ≠ c.image
      · simp [h1, h2]
      · simp [h1, h2]
    · simp [h1]

/-- Witness for C4 at a concrete input: with an extractable digest the
store update is issued exactly when the pin-worthiness test and the
difference test say so. -/
theorem pullImage_pin_behaviour_witness :
    (pullImage pinCxConfig pinWitEnv).setFieldCalled =
      (shouldPinImage pinCxConfig.image &&
        decide (pinnedCandidate pinCxConfig pinWitEnv ≠ pinCxConfig.image)) :=
  (pullImage_pin_behaviour pinCxConfig pinWitEnv rfl).1

theorem goJoin_contains (sep : String) (msgs : List String) (m : String)
    (h : m ∈ msgs) : ∃ p q, goJoin sep msgs = p ++ (m ++ q) := by
  induction msgs with
  | nil => cases h
  | cons x rest ih =>
    rcases List.mem_cons.mp h with rfl | hm
    · cases rest with
      | nil =>
        refine ⟨"", "", ?_⟩
        rw [String.empty_append, String.append_empty]
        rfl
      | cons y t =>
        refine ⟨"", sep ++ goJoin sep (y :: t), ?_⟩
        rw [String.empty_append, ← String.append_assoc]
        rfl
    · have hrest : rest ≠ [] := List.ne_nil_of_mem hm
      obtain ⟨p, q, hp⟩ := ih hm
      rcases hr : rest with _ | ⟨y, t⟩
      · exact absurd hr hrest
      · subst hr
        refine ⟨x ++ sep ++ p, q, ?_⟩
        show x ++ sep ++ goJoin sep (y :: t) = x ++ sep ++ p ++ (m ++ q)
        rw [hp, String.append_assoc (x ++ sep) p (m ++ q)]

/-- C1 counterexample: the claim says every recreation run waits for
all units and then returns nil or a composite error carrying every
failure. With one node and two configuration names whose units both
fail, two error sends compete for the single buffered channel slot
(`errChan` has capacity `len(nodes) = 1`, and is drained only after
`wg.Wait()`), so one sender blocks forever: the run returns neither nil
nor any composite error although failures were reported. -/
theorem ensureContainersStarted_deadlock_cx :
    ensureContainersStarted (fun _ _ => cxFailUnit) false [cxNode] ["c1", "c2"] = none ∧
    (unitFailures (fun _ _ => cxFailUnit) false [cxNode] ["c1", "c2"]).length = 2 :=
  ⟨rfl, rfl⟩

/-- C1 amended: on every recreation run in which at most `len(nodes)`
units fail — so that every channel send completes and the run
terminates — `ensureContainersStarted` returns nil exactly when no
unit reported a failure, and otherwise returns a single composite
error whose message contains every individual unit failure; no
reported failure is dropped. (All `nodes × confNames` units are
attempted regardless of other units' failures: `unitFailures` ranges
over the full cartesian product.) -/
theorem ensureContainersStarted_aggregates (env : Node → String → UnitEnv)
    (relaunch : Bool) (nodes : List Node) (confNames : List String)
    (h : (unitFailures env relaunch nodes confNames).length ≤ nodes.length) :
    (ensureContainersStarted env relaunch nodes confNames = some none ↔
      unitFailures env relaunch nodes confNames = []) ∧
    (∀ m ∈ unitFailures env relaunch nodes confNames,
      ∃ s p q, ensureContainersStarted env relaunch nodes confNames = some (some s) ∧
        s = p ++ (m ++ q)) := by
  unfold ensureContainersStarted chanSendAll
  rw [if_pos h]
  rcases hmsg : unitFailures env relaunch nodes confNames with _ | ⟨x, rest⟩
  · constructor
    · simp
    · intro m hm
      cases hm
  · constructor
    · constructor
      · intro hcontra
        exact absurd hcontra (by simp)
      · intro hcontra
        exact absurd hcontra (by simp)
    · intro m hm
      obtain ⟨p, q, hpq⟩ := goJoin_contains ", " (x :: rest) m hm
      refine ⟨"multiple errors: " ++ goJoin ", " (x :: rest),
        "multiple errors: " ++ p, q, rfl, ?_⟩
      rw [hpq, String.append_assoc]

/-- Witness for C1 (amended) at a concrete input: one node, one
configuration name, one failing unit — the run terminates and the
failure message appears inside the returned composite error. -/
theorem ensureContainersStarted_aggregates_witness :
    ∃ s p q, ensureContainersStarted (fun _ _ => cxFailUnit) false [cxNode]
      ["big-sibling"] = some (some s) ∧ s = p ++ ("load failed" ++ q) :=
  (ensureContainersStarted_aggregates (fun _ _ => cxFailUnit) false [cxNode]
    ["big-sibling"] (by decide)).2 "load failed" (by decide)

/-- C2 (code bug in the source): the claim says the run terminates
regardless of how many of the `nodes × configs` units fail, but the
failure channel holds only `len(nodes)` slots and is drained only
after the barrier: across 3 nodes and 2 configuration names with all
6 units failing, 6 senders compete for 3 slots and the run deadlocks
(the model yields the no-return marker `none`). -/
theorem ensureContainersStarted_undersized_channel :
    ensureContainersStarted (fun _ _ => cxFailUnit) true
      [⟨"http://n1:2375", "p1"⟩, ⟨"http://n2:2375", "p1"⟩, ⟨"http://n3:2375", "p2"⟩]
      ["big-sibling", "sysdig"] = none ∧
    (unitFailures (fun _ _ => cxFailUnit) true
      [⟨"http://n1:2375", "p1"⟩, ⟨"http://n2:2375", "p1"⟩, ⟨"http://n3:2375", "p2"⟩]
      ["big-sibling", "sysdig"]).length = 6 :=
  ⟨rfl, rfl⟩

/-- C8: `RunClusterHook` first runs baseline initialization
(`InitializeBS`), wrapping its failure with a message identifying that
stage; with a successful initialization it runs the recreation flow on
exactly the one affected node with `relaunch = false`, wrapping any
recreation failure with a message identifying that stage; and it
returns nil exactly when both stages succeed. -/
theorem RunClusterHook_stages (initErr : Option String)
    (env : Node → String → UnitEnv) (confNames : List String) (node : Node) :
    (∀ e, initErr = some e →
      RunClusterHook initErr env confNames node =
        some (some ("unable to initialize bs node container: " ++ e))) ∧
    (initErr = none →
      RunClusterHook initErr env confNames node =
        (ensureContainersStarted env false [node] confNames).map
          (fun r => r.map (fun e => "unable to start node containers: " ++ e))) ∧
    (RunClusterHook initErr env confNames node = some none ↔
      initErr = none ∧ ensureContainersStarted env false [node] confNames = some none) := by
  refine ⟨?_, ?_, ?_⟩
  · intro e he
    simp [RunClusterHook, he]
  · intro he
    simp only [RunClusterHook, he]
    rcases ensureContainersStarted env false [node] confNames with _ | _ | e <;> rfl
  · rcases hi : initErr with _ | e
    · simp only [RunClusterHook]
      rcases hens : ensureContainersStarted env false [node] confNames with _ | _ | e <;>
        simp [hens]
    · simp [RunClusterHook]

/-- Witness for C8 at a concrete input: a failing baseline
initialization is wrapped with the stage-identifying message. -/
theorem RunClusterHook_stages_witness :
    RunClusterHook (some "mongo down") (fun _ _ => cxFailUnit) ["big-sibling"] cxNode =
      some (some ("unable to initialize bs node container: " ++ "mongo down")) :=
  (RunClusterHook_stages (some "mongo down") (fun _ _ => cxFailUnit) ["big-sibling"]
    cxNode).1 "mongo down" rfl
